import Mathlib

/-!
Verification development for the formula-compilation front end of a
spreadsheet evaluation engine (pycel, `src/pycel/excelparser.py`).

The Python source is shallowly embedded: tokens are records of strings,
the whitespace post-processing of `Tokenizer._items`, the shunting-yard
parser `ExcelParser.parse_to_rpn`, the RPN reduction `ExcelParser.build_ast`
and the per-node `emit` methods become executable Lean functions.  Python
exceptions become an explicit error type threaded through `Except`.

External collaborators (the openpyxl base tokenizer, `is_range`,
`split_range`, `split_address`, `get_linest_degree`, and the evaluation
context) are not part of the source file; they are modelled as parameters
(`Externals`, `Context`).  The concrete constant strings used by openpyxl
for token types and subtypes are opaque tags compared only for equality;
they are rendered here by their constant names.  The only place a type tag
flows into a value is `Token(token.type, token.type, token.subtype)` for
ARRAY/ARRAYROW opens, whose value is later lower-cased to select the
`func_array`/`func_arrayrow` handlers; the tags used here reproduce that
behaviour.
-/

namespace Pycel

/-- A lexical token: `value` text plus `type`/`subtype` classification,
mirroring the amended openpyxl token. -/
structure Token where
  value : String
  type : String
  subtype : String
deriving DecidableEq, Repr

def Token.OPERAND : String := "OPERAND"
def Token.FUNC : String := "FUNC"
def Token.ARRAY : String := "ARRAY"
def Token.ARRAYROW : String := "ARRAYROW"
def Token.PAREN : String := "PAREN"
def Token.SEP : String := "SEP"
def Token.OP_PRE : String := "OP_PRE"
def Token.OP_IN : String := "OP_IN"
def Token.OP_POST : String := "OP_POST"
def Token.WSPACE : String := "WSPACE"
def Token.OPEN : String := "OPEN"
def Token.CLOSE : String := "CLOSE"
def Token.RANGE : String := "RANGE"
def Token.NUMBER : String := "NUMBER"
def Token.TEXT : String := "TEXT"
def Token.LOGICAL : String := "LOGICAL"
def Token.ERROR : String := "ERROR"
def Token.ROW : String := "ROW"
def Token.ARG : String := "ARG"
def Token.INTERSECT : String := "INTERSECT"

/-- `Token.matches`: unspecified filters are wildcards, filters AND together. -/
def Token.matches (t : Token) (ty sub val : Option String) : Bool :=
  (match ty with | none => true | some s => t.type == s) &&
  (match sub with | none => true | some s => t.subtype == s) &&
  (match val with | none => true | some s => t.value == s)

/-- `Token.is_operator`: prefix, infix or postfix operator token. -/
def Token.is_operator (t : Token) : Bool :=
  t.type == Token.OP_PRE || t.type == Token.OP_IN || t.type == Token.OP_POST

/-- `Token.is_funcopen`: OPEN subtype with FUNC/ARRAY/ARRAYROW type. -/
def Token.is_funcopen (t : Token) : Bool :=
  t.subtype == Token.OPEN &&
    (t.type == Token.FUNC || t.type == Token.ARRAY || t.type == Token.ARRAYROW)

/-- Predicate on the predecessor of a whitespace token in `Tokenizer._items`:
function-close, paren-close, or operand. -/
def wsPrevOk (p : Token) : Bool :=
  p.matches (some Token.FUNC) (some Token.CLOSE) none ||
  p.matches (some Token.PAREN) (some Token.CLOSE) none ||
  p.type == Token.OPERAND

/-- Predicate on the successor of a whitespace token in `Tokenizer._items`:
function-open, paren-open, or operand. -/
def wsNextOk (nx : Token) : Bool :=
  nx.matches (some Token.FUNC) (some Token.OPEN) none ||
  nx.matches (some Token.PAREN) (some Token.OPEN) none ||
  nx.type == Token.OPERAND

/-- One step of the whitespace post-processing in `Tokenizer._items`:
given the (optional) predecessor, the token, and the (optional) successor,
produce the tokens kept for this position.  A non-whitespace token, or a
whitespace token with a missing neighbour, is kept; an interior whitespace
token between a close/operand and an open/operand becomes an INTERSECT
infix operator; any other interior whitespace token is removed. -/
def wsStep (prev : Option Token) (token : Token) (nxt : Option Token) : List Token :=
  match prev, nxt with
  | some p, some nx =>
    if token.type != Token.WSPACE then [token]
    else if wsPrevOk p && wsNextOk nx then
      [⟨token.value, Token.OP_IN, Token.INTERSECT⟩]
    else []
  | _, _ => [token]

/-- Walk the token list keeping track of the previous token, applying
`wsStep` to each (predecessor, token, successor) triple; this is the
`zip(t, t[1:], t[2:])` loop of `Tokenizer._items` with `None` sentinels. -/
def wsItemsAux (prev : Option Token) : List Token → List Token
  | [] => []
  | [t] => wsStep prev t none
  | t :: u :: rest => wsStep prev t (some u) ++ wsItemsAux (some t) (u :: rest)

/-- `Tokenizer._items`: the whitespace post-processing pass over the raw
token stream produced by the (external) base classifier. -/
def wsItems (items : List Token) : List Token :=
  wsItemsAux none items

/-- Error outcomes of the compiler.  `parserError` models `ParserError`;
the other constructors model the distinct built-in Python exception kinds
the code can raise (`assert` failures, bad indexing, missing dict keys,
unpacking errors, calling a non-callable). -/
inductive Err where
  | parserError (msg : String)
  | assertionError
  | indexError
  | keyError
  | valueError
  | typeError
deriving DecidableEq, Repr

instance {α β : Type} [DecidableEq α] [DecidableEq β] : DecidableEq (Except α β) :=
  fun a b =>
    match a, b with
    | .ok a, .ok b =>
      if h : a = b then .isTrue (congrArg Except.ok h)
      else .isFalse (fun hh => h (Except.ok.inj hh))
    | .error a, .error b =>
      if h : a = b then .isTrue (congrArg Except.error h)
      else .isFalse (fun hh => h (Except.error.inj hh))
    | .ok _, .error _ => .isFalse (fun hh => Except.noConfusion hh)
    | .error _, .ok _ => .isFalse (fun hh => Except.noConfusion hh)

/-- The four AST node classes: `OperandNode`, `RangeNode`, `OperatorNode`,
`FunctionNode`. -/
inductive NodeKind where
  | operandNode
  | rangeNode
  | operatorNode
  | functionNode
deriving DecidableEq, Repr

/-- An AST node as produced during parsing: its class, its token, and (for
function nodes) the argument count resolved by the parser. -/
structure RPNNode where
  kind : NodeKind
  token : Token
  num_args : Nat
deriving DecidableEq, Repr

/-- `ASTNode.create`: classify a token into a node, raising the parse
error on an unclassifiable token.  (The Python message interpolates
`repr(token)`; here the token value stands in for it.) -/
def ASTNode.create (t : Token) : Except Err RPNNode :=
  if t.type == Token.OPERAND then
    if t.subtype == Token.RANGE then .ok ⟨.rangeNode, t, 0⟩
    else .ok ⟨.operandNode, t, 0⟩
  else if t.is_funcopen then .ok ⟨.functionNode, t, 0⟩
  else if t.is_operator then .ok ⟨.operatorNode, t, 0⟩
  else .error (.parserError ("Unknown token type: " ++ t.value))

/-- The `Operator` wrapper managed by the shunting-yard loop. -/
structure Operator where
  value : String
  precedence : Nat
  associativity : String
deriving DecidableEq, Repr

/-- `Operator.__lt__`: strictly lower precedence, or equal precedence with
the left operand left-associative. -/
def Operator.lt (a b : Operator) : Bool :=
  decide (a.precedence < b.precedence) ||
    (a.associativity == "left" && a.precedence == b.precedence)

/-- `ExcelParser.operators`: the precedence table. -/
def operators (s : String) : Option Operator :=
  if s == ":" then some ⟨":", 8, "left"⟩
  else if s == " " then some ⟨" ", 8, "left"⟩
  else if s == "," then some ⟨",", 8, "left"⟩
  else if s == "u-" then some ⟨"u-", 7, "left"⟩
  else if s == "%" then some ⟨"%", 6, "left"⟩
  else if s == "^" then some ⟨"^", 5, "left"⟩
  else if s == "*" then some ⟨"*", 4, "left"⟩
  else if s == "/" then some ⟨"/", 4, "left"⟩
  else if s == "+" then some ⟨"+", 3, "left"⟩
  else if s == "-" then some ⟨"-", 3, "left"⟩
  else if s == "&" then some ⟨"&", 2, "left"⟩
  else if s == "=" then some ⟨"=", 1, "left"⟩
  else if s == "<" then some ⟨"<", 1, "left"⟩
  else if s == ">" then some ⟨">", 1, "left"⟩
  else if s == "<=" then some ⟨"<=", 1, "left"⟩
  else if s == ">=" then some ⟨">=", 1, "left"⟩
  else if s == "<>" then some ⟨"<>", 1, "left"⟩
  else none

/-- The table entry for an operator token: a prefix minus selects the
distinct unary-minus entry, every other operator is looked up by value.
This is the lookup performed both for the incoming token and for the
stack top in `parse_to_rpn`. -/
def tokOp (t : Token) : Option Operator :=
  if t.type == Token.OP_PRE && t.value == "-" then operators "u-"
  else operators t.value

/-- One token of the canonicalization pass at the top of `parse_to_rpn`:
function boundaries split into name plus generic paren, array boundaries
expand into array/arrayrow markers plus generic parens, row separators
expand, and plain parens are relabelled to literal brackets. -/
def amendToken (t : Token) : List Token :=
  if t.matches (some Token.FUNC) (some Token.OPEN) none then
    [t, ⟨"(", Token.PAREN, Token.OPEN⟩]
  else if t.matches (some Token.FUNC) (some Token.CLOSE) none then
    [⟨")", Token.PAREN, Token.CLOSE⟩]
  else if t.matches (some Token.ARRAY) (some Token.OPEN) none then
    [t, ⟨"(", Token.PAREN, Token.OPEN⟩, ⟨"", Token.ARRAYROW, Token.OPEN⟩,
     ⟨"(", Token.PAREN, Token.OPEN⟩]
  else if t.matches (some Token.ARRAY) (some Token.CLOSE) none then
    [t, ⟨")", Token.PAREN, Token.CLOSE⟩]
  else if t.matches (some Token.SEP) (some Token.ROW) none then
    [⟨")", Token.PAREN, Token.CLOSE⟩, ⟨",", Token.SEP, Token.ARG⟩,
     ⟨"", Token.ARRAYROW, Token.OPEN⟩, ⟨"(", Token.PAREN, Token.OPEN⟩]
  else if t.matches (some Token.PAREN) (some Token.OPEN) none then
    [{ t with value := "(" }]
  else if t.matches (some Token.PAREN) (some Token.CLOSE) none then
    [{ t with value := ")" }]
  else [t]

/-- The whole canonicalization pass of `parse_to_rpn`. -/
def amendTokens (items : List Token) : List Token :=
  (items.map amendToken).flatten

/-- State of the shunting-yard main loop: output queue, operator/bracket
stack, and the per-bracket-level `were_values` and `arg_count` stacks.
The head of each list is the top of the corresponding Python stack. -/
structure SYState where
  output : List RPNNode
  stack : List Token
  were_values : List Bool
  arg_count : List Nat
deriving DecidableEq, Repr

/-- `if were_values: were_values[-1] = True`. -/
def markValue : List Bool → List Bool
  | [] => []
  | _ :: ws => true :: ws

/-- The inner loop of the operator case: pop-and-emit stack-top operators
while `o1 < o2`, stopping at the first non-operator or at an operator that
does not compare smaller.  A stack-top operator missing from the table
raises the key error, as the Python lookup would. -/
def popOps (o1 : Operator) (output : List RPNNode) :
    List Token → Except Err (List RPNNode × List Token)
  | [] => .ok (output, [])
  | t :: rest =>
    if t.is_operator then
      match tokOp t with
      | none => .error .keyError
      | some o2 =>
        if Operator.lt o1 o2 then
          match ASTNode.create t with
          | .ok node => popOps o1 (output ++ [node]) rest
          | .error e => .error e
        else .ok (output, t :: rest)
    else .ok (output, t :: rest)

/-- The `while stack and stack[-1].subtype != OPEN` loops of the separator
and close-bracket cases: pop-and-emit down to (not including) the nearest
OPEN-subtype token. -/
def popUntilOpen (output : List RPNNode) :
    List Token → Except Err (List RPNNode × List Token)
  | [] => .ok (output, [])
  | t :: rest =>
    if t.subtype != Token.OPEN then
      match ASTNode.create t with
      | .ok node => popUntilOpen (output ++ [node]) rest
      | .error e => .error e
    else .ok (output, t :: rest)

/-- One iteration of the shunting-yard main loop of `parse_to_rpn`,
mirroring its `if`/`elif` chain: operand, non-paren open, separator,
operator, paren open, close bracket; any other token falls through with
the state unchanged. -/
def parseStep (st : SYState) (token : Token) : Except Err SYState :=
  if token.type == Token.OPERAND then
    match ASTNode.create token with
    | .ok node =>
      .ok { st with output := st.output ++ [node], were_values := markValue st.were_values }
    | .error e => .error e
  else if token.type != Token.PAREN && token.subtype == Token.OPEN then
    let token := if token.type == Token.ARRAY || token.type == Token.ARRAYROW then
                   (⟨token.type, token.type, token.subtype⟩ : Token)
                 else token
    .ok { st with stack := token :: st.stack,
                  arg_count := 0 :: st.arg_count,
                  were_values := false :: markValue st.were_values }
  else if token.type == Token.SEP then
    match popUntilOpen st.output st.stack with
    | .error e => .error e
    | .ok (out, stk) =>
      match st.were_values with
      | [] => .error (.parserError "Mismatched or misplaced parentheses")
      | w :: ws =>
        if w then
          match st.arg_count with
          | [] => .error .indexError
          | a :: as_ =>
            .ok { output := out, stack := stk, were_values := false :: ws,
                  arg_count := (a + 1) :: as_ }
        else
          .ok { output := out, stack := stk, were_values := false :: ws,
                arg_count := st.arg_count }
  else if token.is_operator then
    match tokOp token with
    | none => .error .keyError
    | some o1 =>
      match popOps o1 st.output st.stack with
      | .error e => .error e
      | .ok (out, stk) => .ok { st with output := out, stack := token :: stk }
  else if token.subtype == Token.OPEN then
    if token.type == Token.FUNC || token.type == Token.PAREN || token.type == Token.ARRAY then
      .ok { st with stack := token :: st.stack }
    else .error .assertionError
  else if token.subtype == Token.CLOSE then
    match popUntilOpen st.output st.stack with
    | .error e => .error e
    | .ok (out, stk) =>
      match stk with
      | [] => .error (.parserError "Mismatched or misplaced parentheses")
      | _ :: stk2 =>
        match stk2 with
        | f :: stk3 =>
          if f.is_funcopen then
            match ASTNode.create f with
            | .error e => .error e
            | .ok fnode =>
              match st.arg_count, st.were_values with
              | a :: as_, w :: ws =>
                .ok { output := out ++ [{ fnode with num_args := a + (if w then 1 else 0) }],
                      stack := stk3, were_values := ws, arg_count := as_ }
              | _, _ => .error .indexError
          else .ok { st with output := out, stack := stk2 }
        | [] => .ok { st with output := out, stack := [] }
  else .ok st

/-- The final flush of `parse_to_rpn`: emit remaining stack tokens,
raising the parse error if an unmatched bracket remains. -/
def flushStack (output : List RPNNode) : List Token → Except Err (List RPNNode)
  | [] => .ok output
  | t :: rest =>
    if t.subtype == Token.OPEN || t.subtype == Token.CLOSE then
      .error (.parserError "Mismatched or misplaced parentheses")
    else
      match ASTNode.create t with
      | .ok node => flushStack (output ++ [node]) rest
      | .error e => .error e

/-- `ExcelParser.parse_to_rpn` over the raw token stream of the external
base classifier: whitespace post-processing, canonicalization, then the
shunting-yard loop and the final flush. -/
def parse_to_rpn (rawItems : List Token) : Except Err (List RPNNode) :=
  let tokens := amendTokens (wsItems rawItems)
  match tokens.foldlM parseStep ⟨[], [], [], []⟩ with
  | .error e => .error e
  | .ok st => flushStack st.output st.stack

/-- A node of the built syntax tree: its class, token, resolved argument
count, and children in source order (the graph's `pos`-sorted order). -/
inductive AST where
  | node (kind : NodeKind) (token : Token) (num_args : Nat) (children : List AST)
deriving Repr

def AST.kind : AST → NodeKind
  | .node k _ _ _ => k

def AST.token : AST → Token
  | .node _ t _ _ => t

def AST.children : AST → List AST
  | .node _ _ _ cs => cs

/-- One reduction of `build_ast`: an infix operator pops two (second pop
is the left child), any other operator pops one, a function with
`num_args = n > 0` pops the last `n` (oldest first), everything else is a
leaf; the produced node is pushed back.  The stack head is the top. -/
def buildStep (stack : List AST) (node : RPNNode) : Except Err (List AST) :=
  match node.kind with
  | .operatorNode =>
    if node.token.type == Token.OP_IN then
      match stack with
      | arg2 :: arg1 :: rest =>
        .ok (.node .operatorNode node.token node.num_args [arg1, arg2] :: rest)
      | _ =>
        .error (.parserError (node.token.value ++ " operator missing operand"))
    else
      match stack with
      | arg1 :: rest =>
        .ok (.node .operatorNode node.token node.num_args [arg1] :: rest)
      | [] =>
        .error (.parserError (node.token.value ++ " operator missing operand"))
  | .functionNode =>
    if node.num_args != 0 then
      .ok (.node .functionNode node.token node.num_args
             ((stack.take node.num_args).reverse) :: stack.drop node.num_args)
    else
      .ok (.node .functionNode node.token node.num_args [] :: stack)
  | k => .ok (.node k node.token node.num_args [] :: stack)

/-- `ExcelParser.build_ast` on an RPN sequence: reduce over a production
stack; a final stack of size other than one fails the `assert`, which in
Python raises `AssertionError`, not `ParserError`.  (The Python error
messages quote the operator value; the quotes are elided here.) -/
def build_ast (rpn : List RPNNode) : Except Err AST :=
  match rpn.foldlM buildStep [] with
  | .error e => .error e
  | .ok [x] => .ok x
  | .ok _ => .error .assertionError

/-- The evaluation context handed to `emit`: the current cell's sheet
(`context.curcell.sheet`). -/
structure Context where
  curcellSheet : String

/-- The external collaborators used by emission: the pure address-syntax
functions from `pycel.excelutil` and the array-formula degree resolution
`get_linest_degree(context.excel, context.curcell)`, modelled as a
function of the context. -/
structure Externals where
  is_range : String → Bool
  split_range : String → String × String × String
  split_address : String → String × String × String
  get_linest_degree : Context → Int × Int

/-- `OperatorNode.op_map`: convert the operator to python equivalents. -/
def op_map (s : String) : String :=
  if s == "^" then "**"
  else if s == "=" then "=="
  else if s == "&" then "+"
  else if s == " " then "+"
  else s

/-- `FunctionNode.func_map`: excel names that must be renamed to avoid
colliding with python built-ins. -/
def func_map (f : String) : String :=
  if f == "ln" then "xlog"
  else if f == "min" then "xmin"
  else if f == "max" then "xmax"
  else if f == "sum" then "xsum"
  else if f == "gammaln" then "lgamma"
  else if f == "round" then "xround"
  else f

/-- Python `str.strip(c)`: remove every leading and trailing occurrence
of the character `c`. -/
def stripChar (c : Char) (s : String) : String :=
  String.mk (((s.data.dropWhile (· == c)).reverse.dropWhile (· == c)).reverse)

/-- Python `str.lower()` on the ASCII names and symbols handled here. -/
def lowerStr (s : String) : String :=
  String.mk (s.data.map Char.toLower)

/-- Python `str.replace(c, "")`: remove every occurrence of `c`. -/
def removeChar (c : Char) (s : String) : String :=
  String.mk (s.data.filter (· != c))

/-- Python `str.startswith(c)` for a one-character prefix. -/
def startsWithChar (s : String) (c : Char) : Bool :=
  match s.data with
  | [] => false
  | a :: _ => a == c

/-- Python `value.replace('""', '\\"')`: left-to-right, non-overlapping
replacement of doubled double-quotes by a backslash-escaped quote. -/
def escapeQuotes : List Char → List Char
  | '"' :: '"' :: rest => '\\' :: '"' :: escapeQuotes rest
  | c :: rest => c :: escapeQuotes rest
  | [] => []

/-- What `emit` consults about a node's parent: its class and its token.
In the Python code the parent is recovered from the graph; its only uses
are `parent.value`, `isinstance(parent, FunctionNode)`, and presence. -/
abbrev PInfo := Option (NodeKind × Token)

/-- The parenthesization at the end of `OperatorNode.emit`: wrap unless
the node is the root or its parent is a function call. -/
def wrapParens (par : PInfo) (s : String) : String :=
  match par with
  | some (pk, _) => if pk != NodeKind.functionNode then "(" ++ s ++ ")" else s
  | none => s

/-- The linest test in `OperatorNode.emit`: the parent exists and its
value lower-cases to exactly "linest(". -/
def parentIsLinest (par : PInfo) : Bool :=
  match par with
  | some (_, pt) => lowerStr pt.value == "linest("
  | none => false

/-- The zero-substitution guard wrapped around a comparison operand that
is not a literal number (blank cells compare as zero). -/
def blankGuard (s : String) : String :=
  "(" ++ s ++ " if " ++ s ++ " is not None else 0)"

/-- `OperandNode.emit`: logical literals become canonical booleans, quoted
text/error literals are re-escaped and re-wrapped, others pass through. -/
def operandEmit (t : Token) : String :=
  if t.subtype == Token.LOGICAL then
    (if lowerStr t.value == "true" then "True" else "False")
  else if (t.subtype == "TEXT" || t.subtype == "ERROR") && t.value.length > 2 then
    "\"" ++ stripChar '"' (String.mk (escapeQuotes t.value.data)) ++ "\""
  else t.value

/-- `RangeNode.emit`: strip anchors, qualify with the context's sheet when
the reference itself carries none, and select the range or cell lookup. -/
def rangeEmit (x : Externals) (ctx : Option Context) (t : Token) : String :=
  let rng := removeChar '$' t.value
  let sheet := match ctx with
               | some c => c.curcellSheet ++ "!"
               | none => ""
  if x.is_range rng then
    let sh := (x.split_range rng).1
    if sh != "" then "eval_range(\"" ++ rng ++ "\")"
    else "eval_range(\"" ++ sheet ++ rng ++ "\")"
  else
    let sh := (x.split_address rng).1
    if sh != "" then "eval_cell(\"" ++ rng ++ "\")"
    else "eval_cell(\"" ++ sheet ++ rng ++ "\")"

/-- The assembly step of `FunctionNode.emit` special handlers and the
generic case, over the already-emitted argument texts.  Every handler
other than `pi` (which ignores its children) and the non-callable
`func_map` lookup evaluates all children left to right first: the
comma-join handlers do so directly, and `func_atan2`'s tuple unpacking
drains its generator, so argument-count errors surface only after the
children have been emitted. -/
def functionAssemble (x : Externals) (ctx : Option Context) (par : PInfo)
    (func : String) (es : List String) : Except Err String :=
  if func == "atan2" then
    match es with
    | [a1, a2] => .ok ("atan2(" ++ a2 ++ ", " ++ a1 ++ ")")
    | _ => .error .valueError
  else if func == "if" then
    match es ++ ["0"] with
    | [a0, a1, a2] => .ok ("(" ++ a1 ++ " if " ++ a0 ++ " else " ++ a2 ++ ")")
    | [a0, a1, a2, _] => .ok ("(" ++ a1 ++ " if " ++ a0 ++ " else " ++ a2 ++ ")")
    | _ => .error (.parserError "IF with %s arguments not supported")
  else if func == "array" then
    if es.length == 1 then
      match es with
      | e :: _ => .ok ("[" ++ e ++ "]")
      | [] => .error .indexError
    else
      .ok ("[" ++ String.intercalate ", " (es.map (fun e => "[" ++ e ++ "]")) ++ "]")
  else if func == "arrayrow" then
    .ok (String.intercalate ", " es)
  else if func == "linest" || func == "linestmario" then
    let dc : Int × Int := match ctx with
                          | none => (-1, -1)
                          | some c => x.get_linest_degree c
    let code := func ++ "(" ++ String.intercalate ", " es
    let code := if func == "linest" then code ++ ", degree=" ++ toString dc.1 ++ ")"
                else code ++ ")"
    let code := if !(dc.1 == 1 && par.isSome) then
                  code ++ "[" ++ toString (dc.2 - 1) ++ "]"
                else code
    .ok code
  else if func == "and" then
    .ok ("all([" ++ String.intercalate ", " es ++ "])")
  else if func == "or" then
    .ok ("any([" ++ String.intercalate ", " es ++ "])")
  else
    .ok (func_map func ++ "(" ++ String.intercalate ", " es ++ ")")

mutual

/-- `emit` for a built node: dispatch on the node class exactly as the
Python subclass overrides do, and for an operator node on the branches of
`OperatorNode.emit`.  Children are emitted with this node as their
parent.  The function-name dispatch mirrors the
`getattr(self, 'func_' + name)` lookup: a function named "map" finds the
non-callable `func_map` class attribute and fails; `pi` ignores its
children; every other name emits all children first and assembles. -/
def emit (x : Externals) (ctx : Option Context) : PInfo → AST → Except Err String
  | par, .node kind t _na cs =>
    match kind with
    | .operandNode => .ok (operandEmit t)
    | .rangeNode => .ok (rangeEmit x ctx t)
    | .operatorNode =>
      let op := op_map t.value
      if t.type == Token.OP_PRE then opPrefixMinusEmit x ctx t cs
      else if op == "**" && parentIsLinest par then opLinestBaseEmit x ctx t cs
      else if startsWithChar op '<' then opLessEmit x ctx par t cs
      else if startsWithChar op '>' then opGreaterEmit x ctx par t cs
      else opBinaryEmit x ctx par t cs
    | .functionNode =>
      let func := stripChar '(' (lowerStr t.value)
      if func == "pi" then .ok "pi"
      else if func == "map" then .error .typeError
      else
        match emitEach x ctx (some (kind, t)) cs with
        | .error e => .error e
        | .ok es => functionAssemble x ctx par func es

/-- The `OP_PRE` early return of `OperatorNode.emit`: `"-" + args[0]`,
before the parenthesization step. -/
def opPrefixMinusEmit (x : Externals) (ctx : Option Context) :
    Token → List AST → Except Err String
  | t, a :: _ => (emit x ctx (some (.operatorNode, t)) a).map (fun s => "-" ++ s)
  | _, [] => .error .indexError

/-- The power-under-linest early return of `OperatorNode.emit`: emit only
the base operand. -/
def opLinestBaseEmit (x : Externals) (ctx : Option Context) :
    Token → List AST → Except Err String
  | t, a :: _ => emit x ctx (some (.operatorNode, t)) a
  | _, [] => .error .indexError

/-- The `op.startswith('<')` branch of `OperatorNode.emit`: emit the left
operand, guard it when it is not a literal number, then emit the right
operand and parenthesize by parent. -/
def opLessEmit (x : Externals) (ctx : Option Context) :
    PInfo → Token → List AST → Except Err String
  | _, _, [] => .error .indexError
  | par, t, a :: rest => do
    let aa0 ← emit x ctx (some (.operatorNode, t)) a
    let aa := if a.token.matches (some Token.OPERAND) (some Token.NUMBER) none
              then aa0 else blankGuard aa0
    match rest with
    | b :: _ => do
      let bb ← emit x ctx (some (.operatorNode, t)) b
      .ok (wrapParens par (aa ++ " " ++ op_map t.value ++ " " ++ bb))
    | [] => .error .indexError

/-- The `op.startswith('>')` branch of `OperatorNode.emit`: emit the
right operand first (as the Python code does), guard it when it is not a
literal number, then emit the left operand and parenthesize by parent. -/
def opGreaterEmit (x : Externals) (ctx : Option Context) :
    PInfo → Token → List AST → Except Err String
  | par, t, a :: b :: _ => do
    let bb0 ← emit x ctx (some (.operatorNode, t)) b
    let bb := if b.token.matches (some Token.OPERAND) (some Token.NUMBER) none
              then bb0 else blankGuard bb0
    let aa ← emit x ctx (some (.operatorNode, t)) a
    .ok (wrapParens par (aa ++ " " ++ op_map t.value ++ " " ++ bb))
  | _, _, _ => .error .indexError

/-- The final binary branch of `OperatorNode.emit`: left operand, mapped
operator (comma without a leading space), right operand, parenthesized by
parent. -/
def opBinaryEmit (x : Externals) (ctx : Option Context) :
    PInfo → Token → List AST → Except Err String
  | _, _, [] => .error .indexError
  | par, t, a :: rest => do
    let sa ← emit x ctx (some (.operatorNode, t)) a
    match rest with
    | b :: _ => do
      let sb ← emit x ctx (some (.operatorNode, t)) b
      let op := op_map t.value
      let opf := if op != "," then " " ++ op else op
      .ok (wrapParens par (sa ++ opf ++ " " ++ sb))
    | [] => .error .indexError

/-- `comma_join_emit` body: emit a list of children left to right,
propagating the first error. -/
def emitEach (x : Externals) (ctx : Option Context) : PInfo → List AST → Except Err (List String)
  | _, [] => .ok []
  | par, c :: cs => do
    let s ← emit x ctx par c
    let ss ← emitEach x ctx par cs
    .ok (s :: ss)

end

/-- The whole front end on a raw token stream: whitespace handling and
canonicalization, shunting yard, RPN reduction, and emission of the root. -/
def compile_formula (x : Externals) (ctx : Option Context)
    (rawItems : List Token) : Except Err String :=
  match parse_to_rpn rawItems with
  | .error e => .error e
  | .ok rpn =>
    match build_ast rpn with
    | .error e => .error e
    | .ok t => emit x ctx none t

/-- The pop condition of the operator case, transcribed from the claim:
the stack top is an operator whose table entry has strictly higher
precedence than the incoming operator, or equal precedence with left
associativity. -/
def claimPops (o1 : Operator) (t : Token) : Bool :=
  t.is_operator &&
    (match tokOp t with
     | some o2 =>
       decide (o1.precedence < o2.precedence) ||
         (o2.precedence == o1.precedence && o1.associativity == "left")
     | none => false)

/-- The close-bracket case, transcribed from the claim: pop operators to
the matching open bracket (parse error if the stack empties first), pop
the open bracket, and if a function-open token lies beneath it, pop it,
set its argument count from the current level, and emit it. -/
def closeBracketSpec (st : SYState) : Except Err SYState :=
  let emitted := (st.stack.takeWhile (fun t => t.subtype != Token.OPEN)).map
    (fun t => (⟨.operatorNode, t, 0⟩ : RPNNode))
  match st.stack.dropWhile (fun t => t.subtype != Token.OPEN) with
  | [] => .error (.parserError "Mismatched or misplaced parentheses")
  | _ :: stk2 =>
    match stk2 with
    | f :: stk3 =>
      if f.is_funcopen then
        match st.arg_count, st.were_values with
        | a :: as_, w :: ws =>
          .ok { output := st.output ++ emitted ++
                  [⟨.functionNode, f, a + (if w then 1 else 0)⟩],
                stack := stk3, were_values := ws, arg_count := as_ }
        | _, _ => .error .indexError
      else .ok { st with output := st.output ++ emitted, stack := stk2 }
    | [] => .ok { st with output := st.output ++ emitted, stack := [] }

/-- Concrete collaborators for witnesses: no multi-cell ranges, no sheet
prefixes, placeholder degree resolution. -/
def extStub : Externals :=
  ⟨fun _ => false, fun _ => ("", "", ""), fun _ => ("", "", ""), fun _ => (-1, -1)⟩

/-- Concrete collaborators whose degree resolution reports a
single-coefficient regression at coefficient index one. -/
def extLinest1 : Externals :=
  ⟨fun _ => false, fun _ => ("", "", ""), fun _ => ("", "", ""), fun _ => (1, 1)⟩

/-- A literal-number operand token. -/
def numTok (v : String) : Token := ⟨v, Token.OPERAND, Token.NUMBER⟩

/-- A literal-number operand leaf. -/
def numNode (v : String) : AST := .node .operandNode (numTok v) 0 []

theorem create_of_operator (t : Token) (h : t.is_operator = true) :
    ASTNode.create t = .ok ⟨.operatorNode, t, 0⟩ := by
  have h3 : t.type = Token.OP_PRE ∨ t.type = Token.OP_IN ∨ t.type = Token.OP_POST := by
    have h2 := h
    simp only [Token.is_operator, Bool.or_eq_true, beq_iff_eq] at h2
    tauto
  rcases h3 with h1 | h1 | h1 <;>
    simp [ASTNode.create, Token.is_funcopen, Token.is_operator, h1, Token.OPERAND,
      Token.OP_PRE, Token.OP_IN, Token.OP_POST, Token.FUNC, Token.ARRAY, Token.ARRAYROW]

theorem create_of_funcopen (t : Token) (h : t.is_funcopen = true) :
    ASTNode.create t = .ok ⟨.functionNode, t, 0⟩ := by
  have h3 : t.type = Token.FUNC ∨ t.type = Token.ARRAY ∨ t.type = Token.ARRAYROW := by
    have := h
    simp only [Token.is_funcopen, Bool.and_eq_true, Bool.or_eq_true, beq_iff_eq] at this
    tauto
  rcases h3 with h1 | h1 | h1 <;>
    simp [ASTNode.create, h, h1, Token.OPERAND, Token.FUNC, Token.ARRAY, Token.ARRAYROW]

theorem opLt_iff (a b : Operator) :
    Operator.lt a b = true ↔
      (a.precedence < b.precedence ∨
        (a.precedence = b.precedence ∧ a.associativity = "left")) := by
  simp [Operator.lt, Bool.or_eq_true, Bool.and_eq_true, beq_iff_eq, decide_eq_true_iff]
  tauto

theorem claimPops_eq_lt (o1 : Operator) (t : Token) (o2 : Operator)
    (hop : t.is_operator = true) (heq : tokOp t = some o2) :
    claimPops o1 t = Operator.lt o1 o2 := by
  simp only [claimPops, hop, heq, Operator.lt, Bool.true_and]
  cases hA : decide (o1.precedence < o2.precedence) <;>
    cases hY : (o1.associativity == "left") <;>
      cases hX : (o1.precedence == o2.precedence) <;>
        cases hZ : (o2.precedence == o1.precedence) <;>
          simp_all [beq_iff_eq, decide_eq_true_iff]

theorem popOps_spec (o1 : Operator) (out : List RPNNode) (stack : List Token)
    (h : ∀ t ∈ stack, t.is_operator = true → (tokOp t).isSome) :
    popOps o1 out stack =
      .ok (out ++ (stack.takeWhile (claimPops o1)).map
             (fun t => (⟨.operatorNode, t, 0⟩ : RPNNode)),
           stack.dropWhile (claimPops o1)) := by
  induction stack generalizing out with
  | nil => simp [popOps]
  | cons t rest ih =>
    by_cases hop : t.is_operator = true
    · obtain ⟨o2, heq⟩ := Option.isSome_iff_exists.mp
        (h t (List.mem_cons_self t rest) hop)
      have hcp := claimPops_eq_lt o1 t o2 hop heq
      by_cases hlt : Operator.lt o1 o2 = true
      · have hcr := create_of_operator t hop
        have hrest : ∀ u ∈ rest, u.is_operator = true → (tokOp u).isSome :=
          fun u hu => h u (List.mem_cons_of_mem t hu)
        simp [popOps, hop, heq, hlt, hcr, List.takeWhile_cons, List.dropWhile_cons,
          hcp, ih (out ++ [(⟨.operatorNode, t, 0⟩ : RPNNode)]) hrest]
      · have hlt2 : Operator.lt o1 o2 = false := by
          cases hv : Operator.lt o1 o2
          · rfl
          · exact absurd hv hlt
        simp [popOps, hop, heq, hlt2, List.takeWhile_cons, List.dropWhile_cons, hcp]
    · have hop2 : t.is_operator = false := by
        cases hv : t.is_operator
        · rfl
        · exact absurd hv hop
      simp [popOps, hop2, List.takeWhile_cons, List.dropWhile_cons, claimPops]

theorem popUntilOpen_spec (out : List RPNNode) (stack : List Token)
    (h : ∀ t ∈ stack.takeWhile (fun u => u.subtype != Token.OPEN),
           t.is_operator = true) :
    popUntilOpen out stack =
      .ok (out ++ (stack.takeWhile (fun u => u.subtype != Token.OPEN)).map
             (fun t => (⟨.operatorNode, t, 0⟩ : RPNNode)),
           stack.dropWhile (fun u => u.subtype != Token.OPEN)) := by
  induction stack generalizing out with
  | nil => simp [popUntilOpen]
  | cons t rest ih =>
    by_cases hsub : (t.subtype != Token.OPEN) = true
    · have hop : t.is_operator = true := by
        apply h
        simp [List.takeWhile_cons, hsub]
      have hcr := create_of_operator t hop
      have hrest : ∀ u ∈ rest.takeWhile (fun u => u.subtype != Token.OPEN),
          u.is_operator = true := by
        intro u hu
        apply h
        simp [List.takeWhile_cons, hsub]
        exact Or.inr hu
      simp [popUntilOpen, hsub, hcr, List.takeWhile_cons, List.dropWhile_cons,
        ih (out ++ [(⟨.operatorNode, t, 0⟩ : RPNNode)]) hrest]
    · have hsub2 : (t.subtype != Token.OPEN) = false := by
        cases hv : (t.subtype != Token.OPEN)
        · rfl
        · exact absurd hv hsub
      simp [popUntilOpen, hsub2, List.takeWhile_cons, List.dropWhile_cons]

theorem bindOk {α β γ : Type} (a : β) (f : β → Except α γ) :
    Bind.bind (Except.ok a) f = f a := rfl

/-- Claim C1: in `parse_to_rpn`, when an operator token is read, operators
are popped from the stack to the output while the stack top is an operator
of strictly higher precedence, or of equal precedence with left
associativity, before the new operator is pushed; the precedence table is
(tightest first) colon/space/comma at 8, unary minus at 7 (a distinct
entry from binary minus, selected for prefix minus tokens), percent at 6,
power at 5, multiply/divide at 4, add/subtract at 3, concatenation at 2,
and all six comparison operators at 1, every entry left-associative. -/
theorem c1_operator_precedence_and_pops :
    (operators ":" = some ⟨":", 8, "left"⟩ ∧
     operators " " = some ⟨" ", 8, "left"⟩ ∧
     operators "," = some ⟨",", 8, "left"⟩ ∧
     operators "u-" = some ⟨"u-", 7, "left"⟩ ∧
     operators "-" = some ⟨"-", 3, "left"⟩ ∧
     operators "%" = some ⟨"%", 6, "left"⟩ ∧
     operators "^" = some ⟨"^", 5, "left"⟩ ∧
     operators "*" = some ⟨"*", 4, "left"⟩ ∧
     operators "/" = some ⟨"/", 4, "left"⟩ ∧
     operators "+" = some ⟨"+", 3, "left"⟩ ∧
     operators "&" = some ⟨"&", 2, "left"⟩ ∧
     operators "=" = some ⟨"=", 1, "left"⟩ ∧
     operators "<" = some ⟨"<", 1, "left"⟩ ∧
     operators ">" = some ⟨">", 1, "left"⟩ ∧
     operators "<=" = some ⟨"<=", 1, "left"⟩ ∧
     operators ">=" = some ⟨">=", 1, "left"⟩ ∧
     operators "<>" = some ⟨"<>", 1, "left"⟩) ∧
    (∀ t : Token, t.type = Token.OP_PRE → t.value = "-" →
       tokOp t = operators "u-") ∧
    (∀ o1 o2 : Operator, Operator.lt o1 o2 = true ↔
       (o2.precedence > o1.precedence ∨
         (o2.precedence = o1.precedence ∧ o1.associativity = "left"))) ∧
    (∀ (st : SYState) (token : Token) (o1 : Operator),
       token.is_operator = true →
       token.subtype ≠ Token.OPEN →
       tokOp token = some o1 →
       (∀ t ∈ st.stack, t.is_operator = true → (tokOp t).isSome) →
       parseStep st token = .ok { st with
         output := st.output ++ (st.stack.takeWhile (claimPops o1)).map
           (fun t => (⟨.operatorNode, t, 0⟩ : RPNNode)),
         stack := token :: st.stack.dropWhile (claimPops o1) }) := by
  refine ⟨by decide, ?_, ?_, ?_⟩
  · intro t h1 h2
    simp [tokOp, h1, h2]
  · intro o1 o2
    rw [opLt_iff]
    constructor
    · rintro (h | ⟨h1, h2⟩)
      · exact Or.inl h
      · exact Or.inr ⟨h1.symm, h2⟩
    · rintro (h | ⟨h1, h2⟩)
      · exact Or.inl h
      · exact Or.inr ⟨h1.symm, h2⟩
  · intro st token o1 hop hsub heq hstack
    have h3 : token.type = Token.OP_PRE ∨ token.type = Token.OP_IN ∨
        token.type = Token.OP_POST := by
      have h2 := hop
      simp only [Token.is_operator, Bool.or_eq_true, beq_iff_eq] at h2
      tauto
    have h4 : (token.subtype == Token.OPEN) = false := beq_eq_false_iff_ne.mpr hsub
    have hpop := popOps_spec o1 st.output st.stack hstack
    rcases h3 with h1 | h1 | h1 <;>
      simp [parseStep, h1, h4, hop, heq, hpop, Token.OPERAND, Token.SEP,
        Token.OP_PRE, Token.OP_IN, Token.OP_POST, Bool.and_false]

/-- Witness for C1: reading `+` with `*` atop the stack pops the `*`
(precedence 4 against 3) and pushes the `+`. -/
theorem c1_witness :
    parseStep ⟨[], [⟨"*", Token.OP_IN, ""⟩], [true], []⟩ ⟨"+", Token.OP_IN, ""⟩ =
      .ok ⟨[⟨.operatorNode, ⟨"*", Token.OP_IN, ""⟩, 0⟩],
           [⟨"+", Token.OP_IN, ""⟩], [true], []⟩ := by
  have h := c1_operator_precedence_and_pops.2.2.2
    ⟨[], [⟨"*", Token.OP_IN, ""⟩], [true], []⟩ ⟨"+", Token.OP_IN, ""⟩
    ⟨"+", 3, "left"⟩ (by decide) (by decide) (by decide) (by decide)
  rw [h]
  decide

/-- Claim C4: in `parse_to_rpn`, a close bracket pops operators to the
matching open bracket (parse error if the stack empties first), pops the
open bracket, and when a function-open token lies beneath it, pops that
token, sets its `num_args` to the level's `arg_count` plus one exactly
when a value was seen since the last separator, and emits the function
node. -/
theorem c4_close_bracket (st : SYState) (token : Token)
    (hclose : token.subtype = Token.CLOSE)
    (hop1 : token.type ≠ Token.OPERAND)
    (hop2 : token.type ≠ Token.SEP)
    (hop3 : token.is_operator = false)
    (hpops : ∀ t ∈ st.stack.takeWhile (fun u => u.subtype != Token.OPEN),
       t.is_operator = true) :
    parseStep st token = closeBracketSpec st := by
  have h1 : (token.type == Token.OPERAND) = false := beq_eq_false_iff_ne.mpr hop1
  have h2 : (token.type == Token.SEP) = false := beq_eq_false_iff_ne.mpr hop2
  have h4 : (token.subtype == Token.OPEN) = false := by
    rw [hclose]
    decide
  have h5 : (token.subtype == Token.CLOSE) = true := beq_iff_eq.mpr hclose
  have hpop := popUntilOpen_spec st.output st.stack hpops
  simp only [parseStep, h1, h2, h4, h5, hop3, Bool.and_false, Bool.false_eq_true,
    if_false, if_true, ite_false, ite_true]
  rw [hpop]
  simp only [closeBracketSpec]
  cases hdrop : st.stack.dropWhile (fun u => u.subtype != Token.OPEN) with
  | nil => rfl
  | cons opn stk2 =>
    cases stk2 with
    | nil => rfl
    | cons f stk3 =>
      cases hv : f.is_funcopen with
      | false => simp [hv]
      | true =>
        have hcr := create_of_funcopen f hv
        cases st.arg_count <;> cases st.were_values <;>
          simp [hv, hcr, List.append_assoc]

/-- Witness for C4: closing a `SUM(…` call with one counted argument and
a pending value pops the `*` operator, the synthetic open paren and the
function token, and emits the function with two arguments. -/
theorem c4_witness :
    parseStep ⟨[], [⟨"*", Token.OP_IN, ""⟩, ⟨"(", Token.PAREN, Token.OPEN⟩,
                    ⟨"SUM(", Token.FUNC, Token.OPEN⟩], [true], [1]⟩
        ⟨")", Token.PAREN, Token.CLOSE⟩ =
      .ok ⟨[⟨.operatorNode, ⟨"*", Token.OP_IN, ""⟩, 0⟩,
            ⟨.functionNode, ⟨"SUM(", Token.FUNC, Token.OPEN⟩, 2⟩], [], [], []⟩ := by
  have h := c4_close_bracket
    ⟨[], [⟨"*", Token.OP_IN, ""⟩, ⟨"(", Token.PAREN, Token.OPEN⟩,
          ⟨"SUM(", Token.FUNC, Token.OPEN⟩], [true], [1]⟩
    ⟨")", Token.PAREN, Token.CLOSE⟩
    (by decide) (by decide) (by decide) (by decide) (by decide)
  rw [h]
  decide

/-- Claim C2: an IF call emits an inline conditional for exactly two or
three arguments, a missing third argument being replaced by 0, and any
other argument count raises the parse error (after the arguments have
been emitted, as the Python list comprehension does). -/
theorem c2_if_arity (x : Externals) (ctx : Option Context) (par : PInfo)
    (t : Token) (na : Nat) (cs : List AST) (es : List String)
    (hname : stripChar '(' (lowerStr t.value) = "if")
    (hes : emitEach x ctx (some (.functionNode, t)) cs = .ok es) :
    (∀ e0 e1, es = [e0, e1] →
       emit x ctx par (.node .functionNode t na cs) =
         .ok ("(" ++ e1 ++ " if " ++ e0 ++ " else " ++ "0" ++ ")")) ∧
    (∀ e0 e1 e2, es = [e0, e1, e2] →
       emit x ctx par (.node .functionNode t na cs) =
         .ok ("(" ++ e1 ++ " if " ++ e0 ++ " else " ++ e2 ++ ")")) ∧
    (es.length ≠ 2 ∧ es.length ≠ 3 →
       emit x ctx par (.node .functionNode t na cs) =
         .error (.parserError "IF with %s arguments not supported")) := by
  refine ⟨?_, ?_, ?_⟩
  · rintro e0 e1 rfl
    simp [emit, hname, hes, functionAssemble]
  · rintro e0 e1 e2 rfl
    simp [emit, hname, hes, functionAssemble]
  · rintro ⟨hl2, hl3⟩
    rcases es with _ | ⟨e0, _ | ⟨e1, _ | ⟨e2, _ | ⟨e3, rest⟩⟩⟩⟩
    · simp [emit, hname, hes, functionAssemble]
    · simp [emit, hname, hes, functionAssemble]
    · exact absurd rfl hl2
    · exact absurd rfl hl3
    · obtain ⟨y, ys, h9⟩ : ∃ y ys, rest ++ ["0"] = y :: ys := by
        cases rest with
        | nil => exact ⟨"0", [], rfl⟩
        | cons r rs => exact ⟨r, rs ++ ["0"], rfl⟩
      simp [emit, hname, hes, functionAssemble, h9]

/-- Witness for C2: `IF(1,2)` emits `(2 if 1 else 0)`. -/
theorem c2_witness :
    emit extStub none none (.node .functionNode ⟨"IF(", Token.FUNC, Token.OPEN⟩ 2
      [numNode "1", numNode "2"]) = .ok "(2 if 1 else 0)" := by
  have h := (c2_if_arity extStub none none ⟨"IF(", Token.FUNC, Token.OPEN⟩ 2
    [numNode "1", numNode "2"] ["1", "2"] (by decide) (by rfl)).1 "1" "2" rfl
  rw [h]
  rfl

/-- Claim C3: a comparison whose mapped operator begins with `<` wraps
its left operand in the zero-substitution guard unless that operand is a
literal NUMBER operand token, and symmetrically a comparison beginning
with `>` guards its right operand; a literal-number operand is emitted
bare, so two literal numbers produce a plain comparison. -/
theorem c3_comparison_guard (x : Externals) (ctx : Option Context) (par : PInfo)
    (t : Token) (na : Nat) (a b : AST) (ea eb : String)
    (htype : t.type = Token.OP_IN)
    (hea : emit x ctx (some (.operatorNode, t)) a = .ok ea)
    (heb : emit x ctx (some (.operatorNode, t)) b = .ok eb) :
    (startsWithChar (op_map t.value) '<' = true →
       emit x ctx par (.node .operatorNode t na [a, b]) =
         .ok (wrapParens par
           ((if a.token.matches (some Token.OPERAND) (some Token.NUMBER) none
             then ea else blankGuard ea) ++ " " ++ op_map t.value ++ " " ++ eb))) ∧
    (startsWithChar (op_map t.value) '>' = true →
       emit x ctx par (.node .operatorNode t na [a, b]) =
         .ok (wrapParens par
           (ea ++ " " ++ op_map t.value ++ " " ++
            (if b.token.matches (some Token.OPERAND) (some Token.NUMBER) none
             then eb else blankGuard eb)))) := by
  have hpre : (t.type == Token.OP_PRE) = false := by
    rw [htype]
    decide
  constructor
  · intro hst
    have hstar : (op_map t.value == "**") = false := by
      cases hv : (op_map t.value == "**")
      · rfl
      · exfalso
        rw [beq_iff_eq.mp hv] at hst
        exact absurd hst (by decide)
    simp [emit, hpre, hstar, hst, opLessEmit, hea, heb, bindOk]
  · intro hst
    have hstar : (op_map t.value == "**") = false := by
      cases hv : (op_map t.value == "**")
      · rfl
      · exfalso
        rw [beq_iff_eq.mp hv] at hst
        exact absurd hst (by decide)
    have hlt : startsWithChar (op_map t.value) '<' = false := by
      unfold startsWithChar at hst ⊢
      cases hd : (op_map t.value).data with
      | nil => rw [hd] at hst
      | cons c cr =>
        rw [hd] at hst
        simp only [beq_iff_eq] at hst ⊢
        rw [hst]
        decide
    simp [emit, hpre, hstar, hst, hlt, opGreaterEmit, hea, heb, bindOk]

/-- Witness for C3: `A1 < 5` with a range left operand guards the left
side and leaves the literal 5 bare. -/
theorem c3_witness :
    emit extStub none none (.node .operatorNode ⟨"<", Token.OP_IN, ""⟩ 0
      [.node .rangeNode ⟨"A1", Token.OPERAND, Token.RANGE⟩ 0 [], numNode "5"]) =
      .ok "(eval_cell(\"A1\") if eval_cell(\"A1\") is not None else 0) < 5" := by
  have h := (c3_comparison_guard extStub none none ⟨"<", Token.OP_IN, ""⟩ 0
    (.node .rangeNode ⟨"A1", Token.OPERAND, Token.RANGE⟩ 0 []) (numNode "5")
    "eval_cell(\"A1\")" "5" rfl rfl rfl).1 (by decide)
  rw [h]
  rfl

/-- Claim C10: a prefix-minus operator node emits a minus sign followed
by its single operand's text and returns before the parenthesization
step, so the result is never wrapped in parentheses, whatever the
parent. -/
theorem c10_prefix_minus (x : Externals) (ctx : Option Context) (par : PInfo)
    (t : Token) (na : Nat) (a : AST) (ea : String)
    (htype : t.type = Token.OP_PRE) (_hval : t.value = "-")
    (hea : emit x ctx (some (.operatorNode, t)) a = .ok ea) :
    emit x ctx par (.node .operatorNode t na [a]) = .ok ("-" ++ ea) := by
  simp [emit, htype, opPrefixMinusEmit, hea, Except.map]

/-- Witness for C10: `-1` under a non-function parent emits `-1`, with no
parentheses. -/
theorem c10_witness :
    emit extStub none (some (.operatorNode, ⟨"+", Token.OP_IN, ""⟩))
      (.node .operatorNode ⟨"-", Token.OP_PRE, ""⟩ 0 [numNode "1"]) = .ok "-1" := by
  have h := c10_prefix_minus extStub none (some (.operatorNode, ⟨"+", Token.OP_IN, ""⟩))
    ⟨"-", Token.OP_PRE, ""⟩ 0 (numNode "1") "1" rfl rfl rfl
  rw [h]
  rfl

/-- Counterexample for C7: a power node whose parent is the family
variant `LINESTMARIO(` does not suppress its exponent — the code compares
the parent's lowered value against the exact string "linest(" only — so
the claim's "any name variant of the family" fails. -/
theorem c7_counterexample :
    emit extStub none
        (some (.functionNode, ⟨"LINESTMARIO(", Token.FUNC, Token.OPEN⟩))
        (.node .operatorNode ⟨"^", Token.OP_IN, ""⟩ 0 [numNode "1", numNode "2"]) =
      .ok "1 ** 2" ∧ ("1 ** 2" : String) ≠ "1" := by
  exact ⟨rfl, by decide⟩

/-- Claim C7 (amended): a power operator node suppresses its exponent and
returns only the base exactly when its parent's token value lower-cases
to the string "linest(" (the family's primary name); under any other
parent — the `linestmario` variant included — it emits normally with the
mapped exponent operator. -/
theorem c7_linest_power (x : Externals) (ctx : Option Context) (par : PInfo)
    (t : Token) (na : Nat) (a b : AST)
    (htype : t.type = Token.OP_IN)
    (hpow : op_map t.value = "**") :
    (parentIsLinest par = true → ∀ rest,
       emit x ctx par (.node .operatorNode t na (a :: rest)) =
         emit x ctx (some (.operatorNode, t)) a) ∧
    (parentIsLinest par = false → ∀ ea eb,
       emit x ctx (some (.operatorNode, t)) a = .ok ea →
       emit x ctx (some (.operatorNode, t)) b = .ok eb →
       emit x ctx par (.node .operatorNode t na [a, b]) =
         .ok (wrapParens par (ea ++ (" " ++ op_map t.value) ++ " " ++ eb))) := by
  have hpre : (t.type == Token.OP_PRE) = false := by
    rw [htype]
    decide
  constructor
  · intro hlin rest
    simp [emit, hpre, hpow, hlin, opLinestBaseEmit]
  · intro hlin ea eb hea heb
    have h1 : startsWithChar (op_map t.value) '<' = false := by
      rw [hpow]
      decide
    have h2 : startsWithChar (op_map t.value) '>' = false := by
      rw [hpow]
      decide
    have h3 : ((op_map t.value) != ",") = true := by
      rw [hpow]
      decide
    have h1l : startsWithChar "**" '<' = false := by decide
    have h2l : startsWithChar "**" '>' = false := by decide
    simp [emit, hpre, hpow, hlin, h1, h2, h3, h1l, h2l, opBinaryEmit, hea, heb, bindOk]

/-- Witness for C7 (amended): under a `LINEST(` parent the power node
emits only its base. -/
theorem c7_witness :
    emit extStub none (some (.functionNode, ⟨"LINEST(", Token.FUNC, Token.OPEN⟩))
      (.node .operatorNode ⟨"^", Token.OP_IN, ""⟩ 0 [numNode "3", numNode "2"]) =
      .ok "3" := by
  have h := (c7_linest_power extStub none
    (some (.functionNode, ⟨"LINEST(", Token.FUNC, Token.OPEN⟩))
    ⟨"^", Token.OP_IN, ""⟩ 0 (numNode "3") (numNode "2") rfl rfl).1 (by decide)
    [numNode "2"]
  rw [h]
  rfl

/-- Counterexample for C6: a sole top-level single-coefficient `linest`
call (no parent, resolved degree 1) still gets the coefficient
index-selection suffix; the code suppresses the suffix only when the
degree is 1 AND the node has a parent. -/
theorem c6_counterexample :
    emit extLinest1 (some ⟨"S"⟩) none
        (.node .functionNode ⟨"linest(", Token.FUNC, Token.OPEN⟩ 1 [numNode "1"]) =
      .ok "linest(1, degree=1)[0]" ∧
    ("linest(1, degree=1)[0]" : String) ≠ "linest(1, degree=1)" := by
  exact ⟨rfl, by decide⟩

/-- Claim C6 (amended): a regression-family node emits its name, its
emitted arguments, the explicit degree keyword only under the primary
name "linest", and then the index-selection suffix `[coef - 1]` unless
the resolved degree equals 1 and the node has a parent; without a context
the degree and coefficient take the placeholder value -1. -/
theorem c6_linest_emission (x : Externals) (ctx : Option Context) (par : PInfo)
    (t : Token) (na : Nat) (cs : List AST) (es : List String)
    (hfunc : stripChar '(' (lowerStr t.value) = "linest" ∨
             stripChar '(' (lowerStr t.value) = "linestmario")
    (hes : emitEach x ctx (some (.functionNode, t)) cs = .ok es) :
    emit x ctx par (.node .functionNode t na cs) =
      (let func := stripChar '(' (lowerStr t.value)
       let dc : Int × Int := match ctx with
                             | none => (-1, -1)
                             | some c => x.get_linest_degree c
       let code := func ++ "(" ++ String.intercalate ", " es
       let code := if func == "linest" then code ++ ", degree=" ++ toString dc.1 ++ ")"
                   else code ++ ")"
       .ok (if !(dc.1 == 1 && par.isSome) then code ++ "[" ++ toString (dc.2 - 1) ++ "]"
            else code)) := by
  rcases hfunc with h | h <;> cases ctx <;> simp [emit, h, hes, functionAssemble]

/-- Witness for C6 (amended): a nested (parented) `linest` at resolved
degree 1 gets no index suffix. -/
theorem c6_witness :
    emit extLinest1 (some ⟨"S"⟩)
      (some (.functionNode, ⟨"SUM(", Token.FUNC, Token.OPEN⟩))
      (.node .functionNode ⟨"linest(", Token.FUNC, Token.OPEN⟩ 1 [numNode "2"]) =
      .ok "linest(2, degree=1)" := by
  have h := c6_linest_emission extLinest1 (some ⟨"S"⟩)
    (some (.functionNode, ⟨"SUM(", Token.FUNC, Token.OPEN⟩))
    ⟨"linest(", Token.FUNC, Token.OPEN⟩ 1 [numNode "2"] ["2"] (Or.inl (by decide)) rfl
  rw [h]
  rfl

/-- Counterexample for C5: a whitespace token at the boundary of the
stream (here, a one-token stream, so both neighbours are missing) is kept
in the output, not dropped as the claim states. -/
theorem c5_counterexample :
    wsItems [⟨" ", Token.WSPACE, ""⟩] = [⟨" ", Token.WSPACE, ""⟩] ∧
    wsItems [⟨" ", Token.WSPACE, ""⟩] ≠ [] := by
  exact ⟨rfl, by decide⟩

/-- Claim C5 (amended): an interior whitespace token whose predecessor is
a function-close, paren-close or operand token and whose successor is a
function-open, paren-open or operand token becomes an INTERSECT infix
operator token; any other interior whitespace token is dropped; a
whitespace token at the start or end of the stream (missing predecessor
or successor) is kept unchanged; non-whitespace tokens pass through; and
the pass is the stated pure fold over neighbour triples. -/
theorem c5_whitespace_intersect :
    (∀ p t nx, t.type = Token.WSPACE → (wsPrevOk p && wsNextOk nx) = true →
       wsStep (some p) t (some nx) = [⟨t.value, Token.OP_IN, Token.INTERSECT⟩]) ∧
    (∀ p t nx, t.type = Token.WSPACE → (wsPrevOk p && wsNextOk nx) = false →
       wsStep (some p) t (some nx) = []) ∧
    (∀ t nx, wsStep none t nx = [t]) ∧
    (∀ pr t, wsStep pr t none = [t]) ∧
    (∀ pr t nx, t.type ≠ Token.WSPACE → wsStep pr t nx = [t]) ∧
    (∀ pr t u rest, wsItemsAux pr (t :: u :: rest) =
       wsStep pr t (some u) ++ wsItemsAux (some t) (u :: rest)) ∧
    (∀ pr t, wsItemsAux pr [t] = wsStep pr t none) ∧
    (∀ items, wsItems items = wsItemsAux none items) := by
  refine ⟨?_, ?_, ?_, ?_, ?_, ?_, ?_, ?_⟩
  · intro p t nx h1 h2
    simp [wsStep, h1, h2]
  · intro p t nx h1 h2
    simp [wsStep, h1, h2]
  · intro t nx
    cases nx <;> rfl
  · intro pr t
    cases pr <;> rfl
  · intro pr t nx h
    cases pr <;> cases nx <;> simp [wsStep, h]
  · intro pr t u rest
    rfl
  · intro pr t
    rfl
  · intro items
    rfl

/-- Witness for C5 (amended): a space between two range operands becomes
an INTERSECT operator token. -/
theorem c5_witness :
    wsStep (some ⟨"A1", Token.OPERAND, Token.RANGE⟩) ⟨" ", Token.WSPACE, ""⟩
        (some ⟨"B1", Token.OPERAND, Token.RANGE⟩) =
      [⟨" ", Token.OP_IN, Token.INTERSECT⟩] := by
  have h := c5_whitespace_intersect.1 ⟨"A1", Token.OPERAND, Token.RANGE⟩
    ⟨" ", Token.WSPACE, ""⟩ ⟨"B1", Token.OPERAND, Token.RANGE⟩ rfl (by decide)
  rw [h]

/-- Counterexample for C8: the post-reduction stack-size invariant of
`build_ast` fails through the bare `assert`, i.e. as an assertion error,
while user-formula errors raise the parse error — two distinct kinds, so
"every detected violation surfaces as the same single error kind" is
false. -/
theorem c8_counterexample :
    build_ast [⟨.operandNode, numTok "1", 0⟩, ⟨.operandNode, numTok "2", 0⟩] =
      .error .assertionError ∧
    build_ast [⟨.operatorNode, ⟨"+", Token.OP_IN, ""⟩, 0⟩] =
      .error (.parserError "+ operator missing operand") ∧
    Err.assertionError ≠ Err.parserError "+ operator missing operand" := by
  exact ⟨rfl, rfl, by decide⟩

/-- Claim C8 (amended): after the RPN reduction of `build_ast`, a final
production stack of size other than one raises rather than silently
returning a wrong tree — but it raises the assertion error kind, which is
distinct from the parse error kind used for user-formula errors. -/
theorem c8_stack_invariant :
    (∀ (rpn : List RPNNode) (stack : List AST),
       rpn.foldlM buildStep [] = .ok stack → stack.length ≠ 1 →
       build_ast rpn = .error .assertionError) ∧
    (∀ msg, Err.assertionError ≠ Err.parserError msg) := by
  constructor
  · intro rpn stack hfold hlen
    unfold build_ast
    rw [hfold]
    cases stack with
    | nil => rfl
    | cons a rest =>
      cases rest with
      | nil => exact absurd rfl hlen
      | cons b r2 => rfl
  · intro msg h
    exact Err.noConfusion h

/-- Witness for C8 (amended): the empty RPN list reduces to an empty
stack and `build_ast` raises the assertion error. -/
theorem c8_witness : build_ast ([] : List RPNNode) = .error .assertionError := by
  exact c8_stack_invariant.1 [] [] rfl (by decide)

/-- Claim C9: compilation is deterministic — the embedded pipeline is a
pure function of the raw token stream, the collaborators and the context,
so running it twice on the same inputs yields identical output text. -/
theorem c9_deterministic :
    ∀ (x : Externals) (ctx : Option Context) (raw : List Token),
      compile_formula x ctx raw = compile_formula x ctx raw :=
  fun _ _ _ => rfl

end Pycel
